import Mathlib

/-!
Shallow embedding of the thread-management core of the Tifflin kernel
(`Kernel/Core/threads/mod.rs`), together with proofs of the behavioural
properties stated in the accompanying design document.

Modelling conventions:
* A thread control block (`TCB`) carries its thread id, owning process id and
  run state; the kernel state (`KState`) holds the list of live TCBs, the run
  queue and reap queue (as lists of thread ids, front of list = front of
  queue), the CPU-local current-thread pointer (`none` models a NULL pointer,
  as before `init()` ran) and the architecture-designated idle thread id.
* Panics / fatal assertions (`assert!`, `panic!`, `todo!`, `.expect`) are
  modelled as `Except.error` values of the `KFault` type.
* Side effects that matter to the properties (context switches, the two call
  sites of the architecture-designated low-power `idle()` routine, interrupt masking,
  queue pushes, reaping) are recorded in an `KAct` trace.
-/

/-- Run state of a thread (`RunState` in `thread.rs`): `Runnable`, implicit
`Running`, `Blocked`, and terminal `Dead(exit_code)`. -/
inductive RunState where
  | Runnable : RunState
  | Running : RunState
  | Blocked : RunState
  | Dead : Nat → RunState
deriving DecidableEq, Repr

/-- Thread control block: thread id, owning process id, run state. -/
structure TCB where
  tid : Nat
  pid : Nat
  state : RunState
deriving DecidableEq, Repr

/-- Fatal conditions of the threading core, each corresponding to one panic
site in `mod.rs`:
`assertSelfReap` = `assert!(... != borrow_thread ..., "Reaping thread from itself")`;
`panicTid0Terminated` = `panic!("TID 0 terminated")`;
`todoExitRace` = `todo!("Two threads raced to exit")`;
`assertNullThread` = the non-NULL assertions on the CPU-local thread pointer
(`with_cur_thread`, `get_process_id`, `get_cur_thread().expect`). -/
inductive KFault where
  | assertSelfReap : KFault
  | panicTid0Terminated : KFault
  | todoExitRace : KFault
  | assertNullThread : KFault
deriving DecidableEq, Repr

/-- Observable actions of the scheduler core.  The architecture `idle()`
routine is called from two distinct call sites in `mod.rs`: inside
`reschedule` after a switch-to-self, and inside the `idle_thread` loop when
no thread is runnable; the trace keeps the two call sites apart. -/
inductive KAct where
  | switchTo : Nat → KAct
  | archIdleFromReschedule : KAct
  | archIdleFromIdleLoop : KAct
  | stopInterrupts : KAct
  | startInterrupts : KAct
  | reapPass : KAct
  | reapFree : Nat → KAct
  | reapWarnStatic : Nat → KAct
  | pushRun : Nat → KAct
  | pushReap : Nat → KAct
  | forgetIdleHandle : KAct
deriving DecidableEq, Repr

/-- Kernel state relevant to the threading core. -/
structure KState where
  live : List TCB
  runq : List Nat
  reapq : List Nat
  cur : Option Nat
  idleTid : Nat
deriving DecidableEq, Repr

/-- Modelled from the spec: `ThreadList::push` from the absent
`thread_list.rs` — append the thread to the back of the queue. -/
def tlPush (q : List Nat) (t : Nat) : List Nat := q ++ [t]

/-- Modelled from the spec: `ThreadList::pop` from the absent
`thread_list.rs` — remove and return the front entry, or `None` if empty. -/
def tlPop (q : List Nat) : Option Nat × List Nat :=
  match q with
  | [] => (none, [])
  | t :: rest => (some t, rest)

/-- Modelled from the spec: `ThreadList::empty` from the absent
`thread_list.rs`. -/
def tlEmpty (q : List Nat) : Bool := q.isEmpty

/-- An operation performed on a thread list. -/
inductive TLOp where
  | push : Nat → TLOp
  | pop : TLOp
deriving DecidableEq, Repr

/-- Run a sequence of queue operations, accumulating the values returned by
successful pops (in order). -/
def tlRun (ops : List TLOp) (q : List Nat) (outs : List Nat) :
    List Nat × List Nat :=
  match ops with
  | [] => (q, outs)
  | TLOp.push t :: rest => tlRun rest (tlPush q t) outs
  | TLOp.pop :: rest =>
    match tlPop q with
    | (some x, qq) => tlRun rest qq (outs ++ [x])
    | (none, qq) => tlRun rest qq outs

/-- The values pushed by a sequence of queue operations, in order. -/
def tlPushes (ops : List TLOp) : List Nat :=
  match ops with
  | [] => []
  | TLOp.push t :: rest => t :: tlPushes rest
  | TLOp.pop :: rest => tlPushes rest

/-- Dereference a thread pointer: find the live TCB with the given id
(the id plays the role of the `*const Thread` pointer). -/
def findThread (s : KState) (tid : Nat) : Option TCB :=
  s.live.find? (fun t => t.tid = tid)

/-- Embedding of `borrow_thread()` from the architecture layer: the CPU-local pointer,
dereferenced when non-NULL. -/
def borrow_thread (s : KState) : Option TCB :=
  match s.cur with
  | none => none
  | some c => findThread s c

/-- Embedding of `Thread::set_state` applied to the thread with the given id. -/
def setThreadState (s : KState) (tid : Nat) (st : RunState) : KState :=
  { s with live := s.live.map (fun t => if t.tid = tid then { t with state := st } else t) }

/-- The run state of the thread with the given id, when live. -/
def threadState (s : KState) (tid : Nat) : Option RunState :=
  (findThread s tid).map (fun t => t.state)

/-- Embedding of `get_thread_to_run()`: under the interrupt-hold and the run-queue
spinlock, return `None` if the run queue is empty, otherwise pop the
front entry. -/
def get_thread_to_run (s : KState) : Option Nat × KState :=
  if tlEmpty s.runq then
    (none, s)
  else
    match tlPop s.runq with
    | (r, qq) => (r, { s with runq := qq })

/-- Embedding of `reschedule()`: pop the run queue; if the popped thread is the current
thread, switch to it and invoke the architecture idle routine; otherwise
switch to it.  If the queue was empty, switch to the architecture-designated idle
thread unless it is already current, in which case the obtained handle is
discarded with `mem::forget`.  (`switch_to` consuming the target and making
it the CPU-local current thread is the arch-layer contract.) -/
def reschedule (s : KState) : KState × List KAct :=
  match get_thread_to_run s with
  | (some t, s1) =>
    if some t = s1.cur then
      ({ s1 with cur := some t }, [KAct.switchTo t, KAct.archIdleFromReschedule])
    else
      ({ s1 with cur := some t }, [KAct.switchTo t])
  | (none, s1) =>
    let t := s1.idleTid
    if some t ≠ s1.cur then
      ({ s1 with cur := some t }, [KAct.switchTo t])
    else
      (s1, [KAct.forgetIdleHandle])

/-- Modelled from the spec: `ThreadPtr::into_boxed` from the absent
`thread.rs` succeeds for ordinary heap-allocated threads and fails for the
immortal statically-allocated thread 0, which cannot be freed. -/
def intoBoxedOk (tid : Nat) : Bool := tid ≠ 0

/-- The body of the `while let Some(thread) = S_TO_REAP_THREADS.lock().pop()`
loop of `reap_threads()`, recursing on the pending queue entries.  Each popped
thread must not be the currently executing one (`assert!`, fatal); then
`into_boxed` either yields an owned box which is dropped (freeing the TCB) or,
for a thread backed by static storage, fails and the handle is discarded with
a warning.  `rv` records whether any thread was reaped. -/
def reapLoop (q : List Nat) (s : KState) (acts : List KAct) (rv : Bool) :
    Except KFault (KState × List KAct × Bool) :=
  match q with
  | [] => Except.ok (s, acts, rv)
  | tid :: rest =>
    if s.cur = some tid then
      Except.error KFault.assertSelfReap
    else if intoBoxedOk tid then
      reapLoop rest { s with live := s.live.filter (fun t => t.tid ≠ tid) }
        (acts ++ [KAct.reapFree tid]) true
    else
      reapLoop rest s (acts ++ [KAct.reapWarnStatic tid]) true

/-- Embedding of `reap_threads()`: drain the reap queue, freeing each popped thread;
returns `true` if a thread was reaped. -/
def reap_threads (s : KState) : Except KFault (KState × List KAct × Bool) :=
  reapLoop s.reapq { s with reapq := [] } [KAct.reapPass] false

/-- One pass of the `idle_thread()` loop: if `reap_threads()` did no work,
disable interrupts and either switch to a runnable thread (re-enabling
interrupts first) or invoke the architecture idle routine; if reaping did
work, call `reschedule()`. -/
def idle_thread_pass (s : KState) : Except KFault (KState × List KAct) :=
  match reap_threads s with
  | Except.error e => Except.error e
  | Except.ok (s1, acts1, reaped) =>
    if !reaped then
      match get_thread_to_run s1 with
      | (some t, s2) =>
        Except.ok ({ s2 with cur := some t },
          acts1 ++ [KAct.stopInterrupts, KAct.startInterrupts, KAct.switchTo t])
      | (none, s2) =>
        Except.ok (s2, acts1 ++ [KAct.stopInterrupts, KAct.archIdleFromIdleLoop])
    else
      match reschedule s1 with
      | (s2, acts2) => Except.ok (s2, acts1 ++ acts2)

/-- Embedding of `yield_time()`: drop to-reap threads, push the current thread onto the
run queue, then `reschedule()`.  `get_cur_thread()` panics if the CPU-local
thread pointer is NULL. -/
def yield_time (s : KState) : Except KFault (KState × List KAct) :=
  match reap_threads s with
  | Except.error e => Except.error e
  | Except.ok (s1, acts1, _) =>
    match s1.cur with
    | none => Except.error KFault.assertNullThread
    | some c =>
      match reschedule { s1 with runq := tlPush s1.runq c } with
      | (s2, acts2) => Except.ok (s2, acts1 ++ [KAct.pushRun c] ++ acts2)

/-- Embedding of `terminate_thread()`, up to and including the final `reschedule()` (the
code after it is `unreachable!()`; in the machine, the context switch never
returns to the dead thread).  If the caller is TID 0, panic; otherwise set
the caller run state to `Dead(0)`, push it onto the reap queue, and
reschedule. -/
def terminate_thread (s : KState) : Except KFault (KState × List KAct) :=
  match borrow_thread s with
  | none => Except.error KFault.assertNullThread
  | some t =>
    if t.tid = 0 then
      Except.error KFault.panicTid0Terminated
    else
      let s1 := setThreadState s t.tid (RunState.Dead 0)
      let s2 := { s1 with reapq := tlPush s1.reapq t.tid }
      match reschedule s2 with
      | (s3, acts) => Except.ok (s3, KAct.pushReap t.tid :: acts)

/-- Per-process state relevant here: the write-once exit-status cell
(`Process` lives in the absent `thread.rs`). -/
structure KProcess where
  exitStatus : Option Nat
deriving DecidableEq, Repr

/-- Modelled from the spec: `Process::mark_exit` from the absent
`thread.rs` — writes the exit status exactly once; a second writer fails
with a distinct race error instead of overwriting. -/
def mark_exit (p : KProcess) (status : Nat) : Except Unit KProcess :=
  match p.exitStatus with
  | some _ => Except.error ()
  | none => Except.ok { p with exitStatus := some status }

/-- Embedding of `exit_process(status)`: `with_cur_thread` first asserts the
CPU-local thread pointer is non-NULL (fatal otherwise), then records the
exit status in the owning process via `mark_exit` (a race loser hits
`todo!("Two threads raced to exit")`), then `terminate_thread()`. -/
def exit_process (s : KState) (p : KProcess) (status : Nat) :
    Except KFault (KState × KProcess × List KAct) :=
  match borrow_thread s with
  | none => Except.error KFault.assertNullThread
  | some _ =>
    match mark_exit p status with
    | Except.error _ => Except.error KFault.todoExitRace
    | Except.ok p1 =>
      match terminate_thread s with
      | Except.error e => Except.error e
      | Except.ok (s1, acts) => Except.ok (s1, p1, acts)

/-- Embedding of `get_thread_id()`: if the CPU-local thread pointer is NULL return 0,
otherwise return the TID of the currently executing thread. -/
def get_thread_id (s : KState) : Nat :=
  match borrow_thread s with
  | none => 0
  | some t => t.tid

/-- Embedding of `get_process_id()`: assert the CPU-local thread pointer is non-NULL
(fatal otherwise), then return the PID of the process of the current thread. -/
def get_process_id (s : KState) : Except KFault Nat :=
  match borrow_thread s with
  | none => Except.error KFault.assertNullThread
  | some t => Except.ok t.pid

/-- An entry of the per-process `proc_local_data` collection: the `TypeId` of the
stored value and the identity of its `Aref` allocation. -/
structure PLEntry where
  tyId : Nat
  instId : Nat
deriving DecidableEq, Repr

/-- The linear scan both phases of `get_process_local` perform: the first
entry whose `TypeId` matches the requested type, if any. -/
def pldScan (pld : List PLEntry) (ty : Nat) : Option Nat :=
  match pld with
  | [] => none
  | e :: rest => if e.tyId = ty then some e.instId else pldScan rest ty

/-- Embedding of `get_process_local::<T>()` with the interleaving made explicit: `pld0` is
the collection as seen under the read lock (phase 1), `pld1` the collection
as seen after acquiring the write lock (phase 2) — a concurrent first
request by another thread may have inserted between the two.  If both scans
miss, a fresh default instance (allocation identity `fresh`) is created and
pushed. -/
def get_process_local_two_phase (pld0 pld1 : List PLEntry) (ty fresh : Nat) :
    List PLEntry × Nat :=
  match pldScan pld0 ty with
  | some i => (pld1, i)
  | none =>
    match pldScan pld1 ty with
    | some i => (pld1, i)
    | none => (pld1 ++ [⟨ty, fresh⟩], fresh)

/-- Embedding of `get_process_local::<T>()` in the uncontended case: both phases see the
same collection. -/
def get_process_local (pld : List PLEntry) (ty fresh : Nat) :
    List PLEntry × Nat :=
  get_process_local_two_phase pld pld ty fresh

/-- Number of entries of the collection holding an instance of type `ty`. -/
def pldCount (pld : List PLEntry) (ty : Nat) : Nat :=
  (pld.filter (fun e => e.tyId = ty)).length

theorem tlRun_partition (ops : List TLOp) :
    ∀ q outs, (tlRun ops q outs).2 ++ (tlRun ops q outs).1 =
      outs ++ q ++ tlPushes ops := by
  induction ops with
  | nil => intro q outs; simp [tlRun, tlPushes]
  | cons op rest ih =>
    intro q outs
    cases op with
    | push t => simp [tlRun, tlPushes, tlPush, ih]
    | pop =>
      cases q with
      | nil => simp [tlRun, tlPushes, tlPop, ih]
      | cons x xs => simp [tlRun, tlPushes, tlPop, ih]

/-- Claim C7: for all sequences of push and pop on the run queue, pop returns
threads in the order they were pushed (push appends to the back, pop removes
the front), pop returns `None` exactly when the queue is empty, and
`empty()` is true iff no unmatched push remains. -/
theorem c7_runqueue_fifo (ops : List TLOp) :
    (tlRun ops [] []).2 = (tlPushes ops).take (tlRun ops [] []).2.length ∧
    (tlRun ops [] []).1 = (tlPushes ops).drop (tlRun ops [] []).2.length ∧
    (tlEmpty (tlRun ops [] []).1 = true ↔
      (tlRun ops [] []).2.length = (tlPushes ops).length) ∧
    (∀ q : List Nat, (tlPop q).1 = none ↔ q = []) := by
  have h := tlRun_partition ops [] []
  simp only [List.nil_append, List.append_nil] at h
  refine ⟨?_, ?_, ?_, ?_⟩
  · conv_lhs => rw [← List.take_left ((tlRun ops [] []).2) ((tlRun ops [] []).1)]
    rw [h]
  · conv_lhs => rw [← List.drop_left ((tlRun ops [] []).2) ((tlRun ops [] []).1)]
    rw [h]
  · constructor
    · intro he
      have : (tlRun ops [] []).1 = [] := by
        simpa [tlEmpty] using he
      rw [← h, this]
      simp
    · intro hl
      have hlen : (tlRun ops [] []).2.length + (tlRun ops [] []).1.length =
          (tlPushes ops).length := by
        rw [← h]; simp
      have : (tlRun ops [] []).1.length = 0 := by omega
      simp [tlEmpty, List.length_eq_zero.mp this]
  · intro q
    cases q <;> simp [tlPop]

/-- Claim C1: in `reschedule()`, if the thread popped from the run queue is
identical to the currently running thread, the scheduler switches to it,
then immediately invokes the architecture idle routine, and `reschedule`
returns (with the popped entry removed from the run queue). -/
theorem c1_reschedule_self_switch (s : KState) (c : Nat) (rest : List Nat)
    (hq : s.runq = c :: rest) (hc : s.cur = some c) :
    reschedule s =
      ({ s with runq := rest, cur := some c },
       [KAct.switchTo c, KAct.archIdleFromReschedule]) := by
  simp [reschedule, get_thread_to_run, tlEmpty, tlPop, hq, hc]

theorem c1_reschedule_self_switch_witness :
    reschedule ⟨[⟨1, 0, RunState.Running⟩], [1], [], some 1, 9⟩ =
      (⟨[⟨1, 0, RunState.Running⟩], [], [], some 1, 9⟩,
       [KAct.switchTo 1, KAct.archIdleFromReschedule]) :=
  c1_reschedule_self_switch _ 1 [] rfl rfl

/-- Claim C6: `reschedule()` called with an empty run queue while the current
thread is already the designated idle thread performs no context switch,
discards the obtained idle-thread handle instead of queueing it, and leaves
the state — in particular the count of live TCBs and both queues —
unchanged. -/
theorem c6_reschedule_idle_noop (s : KState)
    (hq : s.runq = []) (hc : s.cur = some s.idleTid) :
    reschedule s = (s, [KAct.forgetIdleHandle]) ∧
    (∀ t : Nat, KAct.switchTo t ∉ (reschedule s).2) ∧
    (reschedule s).1.live.length = s.live.length ∧
    (reschedule s).1.runq = s.runq ∧
    (reschedule s).1.reapq = s.reapq := by
  have h : reschedule s = (s, [KAct.forgetIdleHandle]) := by
    simp [reschedule, get_thread_to_run, tlEmpty, hq, hc]
  refine ⟨h, ?_, ?_, ?_, ?_⟩ <;> simp [h]

theorem c6_reschedule_idle_noop_witness :
    reschedule ⟨[⟨9, 0, RunState.Running⟩], [], [], some 9, 9⟩ =
      (⟨[⟨9, 0, RunState.Running⟩], [], [], some 9, 9⟩,
        [KAct.forgetIdleHandle]) ∧
    (∀ t : Nat, KAct.switchTo t ∉
      (reschedule ⟨[⟨9, 0, RunState.Running⟩], [], [], some 9, 9⟩).2) ∧
    (reschedule ⟨[⟨9, 0, RunState.Running⟩], [], [], some 9, 9⟩).1.live.length =
      1 ∧
    (reschedule ⟨[⟨9, 0, RunState.Running⟩], [], [], some 9, 9⟩).1.runq = [] ∧
    (reschedule ⟨[⟨9, 0, RunState.Running⟩], [], [], some 9, 9⟩).1.reapq = [] :=
  c6_reschedule_idle_noop ⟨[⟨9, 0, RunState.Running⟩], [], [], some 9, 9⟩ rfl rfl

/-- Claim C10: `get_thread_id()` is total: with a NULL CPU-local thread
pointer it returns thread id 0 rather than failing, and otherwise it returns
the TID of the currently executing thread; by contrast `get_process_id()`
asserts the pointer is non-NULL, is fatal when it is NULL, and otherwise
returns the PID of the current thread. -/
theorem c10_get_thread_id_total (s0 s1 : KState) (t : TCB)
    (h0 : s0.cur = none) (h1 : borrow_thread s1 = some t) :
    get_thread_id s0 = 0 ∧
    get_process_id s0 = Except.error KFault.assertNullThread ∧
    get_thread_id s1 = t.tid ∧
    get_process_id s1 = Except.ok t.pid := by
  refine ⟨?_, ?_, ?_, ?_⟩
  · simp [get_thread_id, borrow_thread, h0]
  · simp [get_process_id, borrow_thread, h0]
  · simp [get_thread_id, h1]
  · simp [get_process_id, h1]

theorem c10_get_thread_id_total_witness :
    get_thread_id ⟨[], [], [], none, 0⟩ = 0 ∧
    get_process_id ⟨[], [], [], none, 0⟩ =
      Except.error KFault.assertNullThread ∧
    get_thread_id ⟨[⟨5, 7, RunState.Running⟩], [], [], some 5, 9⟩ = 5 ∧
    get_process_id ⟨[⟨5, 7, RunState.Running⟩], [], [], some 5, 9⟩ =
      Except.ok 7 :=
  c10_get_thread_id_total ⟨[], [], [], none, 0⟩
    ⟨[⟨5, 7, RunState.Running⟩], [], [], some 5, 9⟩
    ⟨5, 7, RunState.Running⟩ rfl rfl

theorem reapLoop_self_fatal (q : List Nat) :
    ∀ (s : KState) (acts : List KAct) (rv : Bool) (c : Nat),
      s.cur = some c → c ∈ q →
      reapLoop q s acts rv = Except.error KFault.assertSelfReap := by
  induction q with
  | nil => intro s acts rv c _ h; simp at h
  | cons tid rest ih =>
    intro s acts rv c hc hmem
    by_cases h : s.cur = some tid
    · simp [reapLoop, h]
    · have htid : c ≠ tid := fun he => h (he ▸ hc)
      have hrest : c ∈ rest := by
        rcases List.mem_cons.mp hmem with h1 | h1
        · exact absurd h1 htid
        · exact h1
      rw [reapLoop, if_neg h]
      by_cases hbox : intoBoxedOk tid
      · rw [if_pos hbox]; exact ih _ _ _ c hc hrest
      · rw [if_neg hbox]; exact ih _ _ _ c hc hrest

theorem reapLoop_ok (q : List Nat) :
    ∀ (s : KState) (acts : List KAct) (rv : Bool),
      (∀ tid ∈ q, s.cur ≠ some tid) →
      ∃ s2 acts2, reapLoop q s acts rv =
          Except.ok (s2, acts ++ acts2, rv || !q.isEmpty) ∧
        KAct.archIdleFromIdleLoop ∉ acts2 ∧
        s2.runq = s.runq ∧ s2.cur = s.cur ∧ s2.reapq = s.reapq := by
  induction q with
  | nil =>
    intro s acts rv _
    exact ⟨s, [], by simp [reapLoop], by simp, rfl, rfl, rfl⟩
  | cons tid rest ih =>
    intro s acts rv hno
    have h : ¬ s.cur = some tid := hno tid (List.mem_cons_self _ _)
    by_cases hbox : intoBoxedOk tid
    · obtain ⟨s2, acts2, heq, hmem, h1, h2, h3⟩ :=
        ih { s with live := s.live.filter (fun t => t.tid ≠ tid) }
          (acts ++ [KAct.reapFree tid]) true
          (fun tid2 hm => hno tid2 (List.mem_cons_of_mem _ hm))
      refine ⟨s2, KAct.reapFree tid :: acts2, ?_, ?_, h1, h2, h3⟩
      · rw [reapLoop, if_neg h, if_pos hbox, heq]
        simp
      · simp [hmem]
    · obtain ⟨s2, acts2, heq, hmem, h1, h2, h3⟩ :=
        ih s (acts ++ [KAct.reapWarnStatic tid]) true
          (fun tid2 hm => hno tid2 (List.mem_cons_of_mem _ hm))
      refine ⟨s2, KAct.reapWarnStatic tid :: acts2, ?_, ?_, h1, h2, h3⟩
      · rw [reapLoop, if_neg h, if_neg hbox, heq]
        simp
      · simp [hmem]

theorem reap_threads_self_fatal (s : KState) (c : Nat)
    (hc : s.cur = some c) (hmem : c ∈ s.reapq) :
    reap_threads s = Except.error KFault.assertSelfReap :=
  reapLoop_self_fatal s.reapq _ _ _ c hc hmem

theorem reap_threads_ok (s : KState)
    (hno : ∀ tid ∈ s.reapq, s.cur ≠ some tid) :
    ∃ s2 acts2, reap_threads s =
        Except.ok (s2, KAct.reapPass :: acts2, !s.reapq.isEmpty) ∧
      KAct.archIdleFromIdleLoop ∉ acts2 ∧
      s2.runq = s.runq ∧ s2.cur = s.cur ∧ s2.reapq = [] := by
  obtain ⟨s2, acts2, heq, hmem, h1, h2, h3⟩ :=
    reapLoop_ok s.reapq { s with reapq := [] } [KAct.reapPass] false hno
  refine ⟨s2, acts2, ?_, hmem, h1, h2, by simp [h3]⟩
  rw [reap_threads, heq]
  simp

/-- Claim C3: whenever the currently executing thread appears on the reap
queue (self-reap), `reap_threads()` hits the fatal assertion and never
completes a silent free; when no reap-queue entry is the current thread, the
assertion branch is unreachable and reaping completes normally. -/
theorem c3_reap_self_assertion (s : KState) (c : Nat) (hc : s.cur = some c) :
    (c ∈ s.reapq → reap_threads s = Except.error KFault.assertSelfReap) ∧
    (c ∉ s.reapq → ∃ r, reap_threads s = Except.ok r) := by
  constructor
  · intro hmem
    exact reap_threads_self_fatal s c hc hmem
  · intro hnm
    have hno : ∀ tid ∈ s.reapq, s.cur ≠ some tid := by
      intro tid hm he
      rw [hc] at he
      exact hnm ((Option.some.inj he) ▸ hm)
    obtain ⟨s2, acts2, heq, -⟩ := reap_threads_ok s hno
    exact ⟨_, heq⟩

theorem c3_reap_self_assertion_witness :
    ((1 : Nat) ∈ [1] →
      reap_threads ⟨[⟨1, 0, RunState.Dead 0⟩], [], [1], some 1, 9⟩ =
        Except.error KFault.assertSelfReap) ∧
    ((1 : Nat) ∉ [1] →
      ∃ r, reap_threads ⟨[⟨1, 0, RunState.Dead 0⟩], [], [1], some 1, 9⟩ =
        Except.ok r) :=
  c3_reap_self_assertion ⟨[⟨1, 0, RunState.Dead 0⟩], [], [1], some 1, 9⟩ 1 rfl

theorem reschedule_spec (s : KState) :
    (∃ t rest, s.runq = t :: rest ∧
      (reschedule s).1 = { s with runq := rest, cur := some t } ∧
      ((reschedule s).2 = [KAct.switchTo t, KAct.archIdleFromReschedule] ∨
       (reschedule s).2 = [KAct.switchTo t])) ∨
    (s.runq = [] ∧
      ((reschedule s).1 = { s with cur := some s.idleTid } ∨
       (reschedule s).1 = s) ∧
      ((reschedule s).2 = [KAct.switchTo s.idleTid] ∨
       (reschedule s).2 = [KAct.forgetIdleHandle])) := by
  rcases hq : s.runq with _ | ⟨t, rest⟩
  · right
    refine ⟨rfl, ?_⟩
    by_cases hc : some s.idleTid = s.cur
    · constructor
      · right; simp [reschedule, get_thread_to_run, tlEmpty, hq, hc]
      · right; simp [reschedule, get_thread_to_run, tlEmpty, hq, hc]
    · constructor
      · left; simp [reschedule, get_thread_to_run, tlEmpty, hq, hc]
      · left; simp [reschedule, get_thread_to_run, tlEmpty, hq, hc]
  · left
    refine ⟨t, rest, rfl, ?_⟩
    by_cases hc : some t = s.cur
    · constructor
      · simp [reschedule, get_thread_to_run, tlEmpty, tlPop, hq, ← hc]
      · left; simp [reschedule, get_thread_to_run, tlEmpty, tlPop, hq, ← hc]
    · constructor
      · simp [reschedule, get_thread_to_run, tlEmpty, tlPop, hq, hc]
      · right; simp [reschedule, get_thread_to_run, tlEmpty, tlPop, hq, hc]

theorem reschedule_live_eq (s : KState) : (reschedule s).1.live = s.live := by
  rcases reschedule_spec s with ⟨t, rest, hq, h1, h2⟩ | ⟨hq, h1 | h1, h2⟩ <;>
    rw [h1]

theorem reschedule_reapq_eq (s : KState) : (reschedule s).1.reapq = s.reapq := by
  rcases reschedule_spec s with ⟨t, rest, hq, h1, h2⟩ | ⟨hq, h1 | h1, h2⟩ <;>
    rw [h1]

theorem reschedule_no_idle_loop_act (s : KState) :
    KAct.archIdleFromIdleLoop ∉ (reschedule s).2 := by
  rcases reschedule_spec s with ⟨t, rest, hq, h1, h2 | h2⟩ | ⟨hq, h1, h2 | h2⟩ <;>
    simp [h2]

theorem reschedule_no_switch_to (s : KState) (c : Nat)
    (hrq : c ∉ s.runq) (hidle : c ≠ s.idleTid) :
    KAct.switchTo c ∉ (reschedule s).2 := by
  have ht : ∀ t rest, s.runq = t :: rest → ¬ c = t := by
    intro t rest hq he
    apply hrq
    rw [hq, he]
    exact List.mem_cons_self _ _
  rcases reschedule_spec s with ⟨t, rest, hq, h1, h2 | h2⟩ | ⟨hq, h1, h2 | h2⟩ <;>
    simp [h2]
  · exact ht t rest hq
  · exact ht t rest hq
  · exact hidle

theorem reschedule_runq_not_mem (s : KState) (c : Nat) (h : c ∉ s.runq) :
    c ∉ (reschedule s).1.runq := by
  rcases reschedule_spec s with ⟨t, rest, hq, h1, -⟩ | ⟨hq, h1 | h1, -⟩
  · rw [h1]
    intro hm
    apply h
    rw [hq]
    exact List.mem_cons_of_mem _ hm
  · rw [h1]; exact h
  · rw [h1]; exact h

/-- Claim C5: every pass of the idle loop begins by attempting to reap dead
threads, and the idle-loop hardware idle (low-power wait) call site is
reached exactly when no reaping work was done on that pass and no thread is
runnable. -/
theorem c5_idle_pass_gating (s : KState)
    (hno : ∀ tid ∈ s.reapq, s.cur ≠ some tid) :
    ∃ s2 acts, idle_thread_pass s = Except.ok (s2, acts) ∧
      KAct.reapPass ∈ acts ∧
      (KAct.archIdleFromIdleLoop ∈ acts ↔ (s.reapq = [] ∧ s.runq = [])) := by
  obtain ⟨s1, acts2, heq, hnidle, hrq, hcur, hreap⟩ := reap_threads_ok s hno
  rcases hre : s.reapq with _ | ⟨x, xs⟩
  · rw [hre] at heq
    simp only [List.isEmpty_nil, Bool.not_true] at heq
    rcases hq : s.runq with _ | ⟨t, rest⟩
    · refine ⟨s1, KAct.reapPass :: acts2 ++
        [KAct.stopInterrupts, KAct.archIdleFromIdleLoop], ?_, by simp,
        by simp [hre, hq]⟩
      simp only [idle_thread_pass]
      rw [heq]
      simp [get_thread_to_run, tlEmpty, hrq, hq]
    · refine ⟨{ s1 with runq := rest, cur := some t },
        KAct.reapPass :: acts2 ++
          [KAct.stopInterrupts, KAct.startInterrupts, KAct.switchTo t],
        ?_, by simp, ?_⟩
      · simp only [idle_thread_pass]
        rw [heq]
        simp [get_thread_to_run, tlEmpty, tlPop, hrq, hq]
      · simp [hre, hq, hnidle]
  · rw [hre] at heq
    simp only [List.isEmpty_cons, Bool.not_false] at heq
    have hres := reschedule_no_idle_loop_act s1
    refine ⟨(reschedule s1).1, KAct.reapPass :: acts2 ++ (reschedule s1).2,
      ?_, by simp, ?_⟩
    · simp only [idle_thread_pass]
      rw [heq]
      simp
    · simp [hre, hnidle, hres]

theorem c5_idle_pass_gating_witness :
    ∃ s2 acts,
      idle_thread_pass ⟨[⟨9, 0, RunState.Running⟩], [], [], some 9, 9⟩ =
        Except.ok (s2, acts) ∧
      KAct.reapPass ∈ acts ∧
      (KAct.archIdleFromIdleLoop ∈ acts ↔
        (([] : List Nat) = [] ∧ ([] : List Nat) = [])) :=
  c5_idle_pass_gating ⟨[⟨9, 0, RunState.Running⟩], [], [], some 9, 9⟩
    (by simp)

/-- Claim C9: a thread calling `yield_time()` when no other thread is
runnable (and nothing is pending on the reap queue) observes control return
to itself — the state is unchanged and the switch target is the caller —
and the idle-path hardware-wait call site is never executed on this path
(the only architecture idle invocation in the trace is the one of
the switch-to-self branch of `reschedule`). -/
theorem c9_yield_self_noop (s : KState) (c : Nat)
    (hc : s.cur = some c) (hq : s.runq = []) (hr : s.reapq = []) :
    yield_time s = Except.ok (s,
      [KAct.reapPass, KAct.pushRun c, KAct.switchTo c,
        KAct.archIdleFromReschedule]) ∧
    KAct.archIdleFromIdleLoop ∉
      ([KAct.reapPass, KAct.pushRun c, KAct.switchTo c,
        KAct.archIdleFromReschedule] : List KAct) := by
  refine ⟨?_, by simp⟩
  obtain ⟨live, runq, reapq, cur, idle⟩ := s
  simp only at hc hq hr
  subst hc
  subst hq
  subst hr
  simp [yield_time, reap_threads, reapLoop, reschedule, get_thread_to_run,
    tlEmpty, tlPush, tlPop]

theorem c9_yield_self_noop_witness :
    yield_time ⟨[⟨1, 0, RunState.Running⟩], [], [], some 1, 9⟩ =
      Except.ok (⟨[⟨1, 0, RunState.Running⟩], [], [], some 1, 9⟩,
        [KAct.reapPass, KAct.pushRun 1, KAct.switchTo 1,
          KAct.archIdleFromReschedule]) ∧
    KAct.archIdleFromIdleLoop ∉
      ([KAct.reapPass, KAct.pushRun 1, KAct.switchTo 1,
        KAct.archIdleFromReschedule] : List KAct) :=
  c9_yield_self_noop ⟨[⟨1, 0, RunState.Running⟩], [], [], some 1, 9⟩ 1
    rfl rfl rfl

theorem findThread_tid (s : KState) (c : Nat) (t : TCB)
    (h : findThread s c = some t) : t.tid = c := by
  simp only [findThread] at h
  have h2 := List.find?_some h
  simpa using h2

theorem find_map_setState (l : List TCB) (c : Nat) (st : RunState) :
    (l.map (fun t => if t.tid = c then { t with state := st } else t)).find?
        (fun t => t.tid = c) =
      (l.find? (fun t => t.tid = c)).map
        (fun t => { t with state := st }) := by
  induction l with
  | nil => simp
  | cons x xs ih =>
    by_cases h : x.tid = c <;>
      simp [List.find?_cons, h, ih]

theorem findThread_setThreadState (s : KState) (c : Nat) (t : TCB)
    (h : findThread s c = some t) (st : RunState) :
    findThread (setThreadState s c st) c =
      some { t with state := st } := by
  simp only [findThread, setThreadState] at h ⊢
  rw [find_map_setState, h]
  rfl

theorem terminate_thread_tid0 (s : KState) (t : TCB)
    (hb : borrow_thread s = some t) (h0 : t.tid = 0) :
    terminate_thread s = Except.error KFault.panicTid0Terminated := by
  simp only [terminate_thread, hb]
  rw [if_pos h0]

theorem terminate_thread_ok (s : KState) (t : TCB)
    (hb : borrow_thread s = some t) (h0 : t.tid ≠ 0) :
    ∃ s2 acts, terminate_thread s = Except.ok (s2, acts) ∧
      threadState s2 t.tid = some (RunState.Dead 0) ∧
      t.tid ∈ s2.reapq ∧
      (t.tid ∉ s.runq → t.tid ∉ s2.runq) ∧
      (t.tid ∉ s.runq → t.tid ≠ s.idleTid →
        KAct.switchTo t.tid ∉ acts) := by
  obtain ⟨c, hc, hf⟩ : ∃ c, s.cur = some c ∧ findThread s c = some t := by
    rcases hcur : s.cur with _ | c
    · simp only [borrow_thread, hcur] at hb
      cases hb
    · refine ⟨c, rfl, ?_⟩
      simpa only [borrow_thread, hcur] using hb
  have htid : t.tid = c := findThread_tid s c t hf
  have hf2 : findThread s t.tid = some t := by rw [htid]; exact hf
  set sp := { setThreadState s t.tid (RunState.Dead 0) with
    reapq := tlPush (setThreadState s t.tid (RunState.Dead 0)).reapq t.tid }
    with hsp
  have hterm : terminate_thread s =
      Except.ok ((reschedule sp).1,
        KAct.pushReap t.tid :: (reschedule sp).2) := by
    simp only [terminate_thread, hb]
    rw [if_neg h0]
  refine ⟨(reschedule sp).1, KAct.pushReap t.tid :: (reschedule sp).2,
    hterm, ?_, ?_, ?_, ?_⟩
  · have hlive := reschedule_live_eq sp
    have hf3 : findThread (setThreadState s t.tid (RunState.Dead 0)) t.tid =
        some { t with state := RunState.Dead 0 } :=
      findThread_setThreadState s t.tid t hf2 _
    have hf4 : findThread (reschedule sp).1 t.tid =
        some { t with state := RunState.Dead 0 } := by
      simp only [findThread] at hf3 ⊢
      rw [hlive]
      exact hf3
    simp [threadState, hf4]
  · have hre := reschedule_reapq_eq sp
    rw [hre, hsp]
    simp [tlPush, setThreadState]
  · intro hrq
    exact reschedule_runq_not_mem sp t.tid hrq
  · intro hrq hidle hmem
    rcases List.mem_cons.mp hmem with h1 | h1
    · cases h1
    · exact reschedule_no_switch_to sp t.tid hrq hidle h1

/-- Claim C2: `terminate_thread()` never returns to its caller: a caller
with thread id 0 panics the kernel; any other caller has its run state set
to `Dead`, is pushed onto the reap queue and not onto the run queue, and the
ensuing `reschedule()` never switches control back to the dead caller (its
switch target is a popped runnable thread or the idle thread, never the
caller). -/
theorem c2_terminate_thread_no_return (s0 s : KState) (t0 t : TCB)
    (hb0 : borrow_thread s0 = some t0) (h00 : t0.tid = 0)
    (hb : borrow_thread s = some t) (h0 : t.tid ≠ 0)
    (hrq : t.tid ∉ s.runq) (hidle : t.tid ≠ s.idleTid) :
    terminate_thread s0 = Except.error KFault.panicTid0Terminated ∧
    ∃ s2 acts, terminate_thread s = Except.ok (s2, acts) ∧
      threadState s2 t.tid = some (RunState.Dead 0) ∧
      t.tid ∈ s2.reapq ∧
      t.tid ∉ s2.runq ∧
      KAct.switchTo t.tid ∉ acts := by
  refine ⟨terminate_thread_tid0 s0 t0 hb0 h00, ?_⟩
  obtain ⟨s2, acts, heq, hdead, hreap, hrq2, hsw⟩ :=
    terminate_thread_ok s t hb h0
  exact ⟨s2, acts, heq, hdead, hreap, hrq2 hrq, hsw hrq hidle⟩

theorem c2_terminate_thread_no_return_witness :
    terminate_thread ⟨[⟨0, 0, RunState.Running⟩], [], [], some 0, 9⟩ =
      Except.error KFault.panicTid0Terminated ∧
    ∃ s2 acts,
      terminate_thread ⟨[⟨1, 0, RunState.Running⟩], [], [], some 1, 9⟩ =
        Except.ok (s2, acts) ∧
      threadState s2 1 = some (RunState.Dead 0) ∧
      (1 : Nat) ∈ s2.reapq ∧
      (1 : Nat) ∉ s2.runq ∧
      KAct.switchTo 1 ∉ acts :=
  c2_terminate_thread_no_return
    ⟨[⟨0, 0, RunState.Running⟩], [], [], some 0, 9⟩
    ⟨[⟨1, 0, RunState.Running⟩], [], [], some 1, 9⟩
    ⟨0, 0, RunState.Running⟩ ⟨1, 0, RunState.Running⟩
    rfl rfl rfl (by decide) (by decide) (by decide)

/-- Claim C4: `exit_process(status)` writes the exit status into the owning
process exactly once and then terminates the calling thread (run state
`Dead`, pushed to the reap queue); a second call on the same process — by
any thread that passes the non-NULL current-thread assertion preceding
`mark_exit` — fails with the distinct race fault and does not overwrite the
recorded status. -/
theorem c4_exit_process_write_once (s : KState) (t : TCB) (p : KProcess)
    (st1 st2 : Nat)
    (hp : p.exitStatus = none)
    (hb : borrow_thread s = some t) (h0 : t.tid ≠ 0) :
    ∃ s2 p2 acts, exit_process s p st1 = Except.ok (s2, p2, acts) ∧
      p2.exitStatus = some st1 ∧
      (∀ (s3 : KState) (t3 : TCB), borrow_thread s3 = some t3 →
        exit_process s3 p2 st2 = Except.error KFault.todoExitRace) ∧
      threadState s2 t.tid = some (RunState.Dead 0) ∧
      t.tid ∈ s2.reapq := by
  obtain ⟨s2, acts, heq, hdead, hreap, -, -⟩ := terminate_thread_ok s t hb h0
  refine ⟨s2, ⟨some st1⟩, acts, ?_, rfl, ?_, hdead, hreap⟩
  · simp only [exit_process, hb, mark_exit, hp]
    rw [heq]
  · intro s3 t3 hb3
    simp [exit_process, hb3, mark_exit]

theorem c4_exit_process_write_once_witness :
    ∃ s2 p2 acts,
      exit_process ⟨[⟨1, 0, RunState.Running⟩], [], [], some 1, 9⟩
          ⟨none⟩ 42 = Except.ok (s2, p2, acts) ∧
      p2.exitStatus = some 42 ∧
      (∀ (s3 : KState) (t3 : TCB), borrow_thread s3 = some t3 →
        exit_process s3 p2 7 = Except.error KFault.todoExitRace) ∧
      threadState s2 1 = some (RunState.Dead 0) ∧
      (1 : Nat) ∈ s2.reapq :=
  c4_exit_process_write_once ⟨[⟨1, 0, RunState.Running⟩], [], [], some 1, 9⟩
    ⟨1, 0, RunState.Running⟩ ⟨none⟩ 42 7 rfl rfl (by decide)

theorem pldScan_append_none (pld1 pld2 : List PLEntry) (ty : Nat)
    (h : pldScan pld1 ty = none) :
    pldScan (pld1 ++ pld2) ty = pldScan pld2 ty := by
  induction pld1 with
  | nil => simp
  | cons e rest ih =>
    simp only [pldScan, List.cons_append] at h ⊢
    by_cases he : e.tyId = ty
    · rw [if_pos he] at h; cases h
    · rw [if_neg he] at h ⊢
      exact ih h

theorem pldScan_none_count (pld : List PLEntry) (ty : Nat)
    (h : pldScan pld ty = none) : pldCount pld ty = 0 := by
  induction pld with
  | nil => simp [pldCount]
  | cons e rest ih =>
    simp only [pldScan] at h
    by_cases he : e.tyId = ty
    · rw [if_pos he] at h; cases h
    · rw [if_neg he] at h
      simpa [pldCount, List.filter_cons, he] using ih h

theorem pldCount_append (pld1 pld2 : List PLEntry) (ty : Nat) :
    pldCount (pld1 ++ pld2) ty = pldCount pld1 ty + pldCount pld2 ty := by
  simp [pldCount, List.filter_append]

/-- Claim C8: `get_process_local` keeps at most one live instance per type
per process: a first request that misses both scans constructs the default
instance and caches it; with the single-instance invariant holding
beforehand it holds afterwards; a later request returns a borrow of that
same instance without inserting; and the loser of a concurrent first
request — whose read-locked phase-1 scan saw the collection before the
insert of the winner but whose write-locked phase-2 scan sees it after — also
returns the instance of the winner rather than creating a duplicate. -/
theorem c8_process_local_single_instance (pld0 : List PLEntry)
    (ty fresh fresh2 fresh3 : Nat)
    (hmiss : pldScan pld0 ty = none)
    (hinv : ∀ ty2, pldCount pld0 ty2 ≤ 1) :
    ∃ pld1 i, get_process_local pld0 ty fresh = (pld1, i) ∧
      i = fresh ∧
      (∀ ty2, pldCount pld1 ty2 ≤ 1) ∧
      get_process_local pld1 ty fresh2 = (pld1, i) ∧
      get_process_local_two_phase pld0 pld1 ty fresh3 = (pld1, i) := by
  have h1 : get_process_local pld0 ty fresh =
      (pld0 ++ [⟨ty, fresh⟩], fresh) := by
    simp [get_process_local, get_process_local_two_phase, hmiss]
  have hscan1 : pldScan (pld0 ++ [⟨ty, fresh⟩]) ty = some fresh := by
    rw [pldScan_append_none pld0 _ ty hmiss]
    simp [pldScan]
  refine ⟨pld0 ++ [⟨ty, fresh⟩], fresh, h1, rfl, ?_, ?_, ?_⟩
  · intro ty2
    rw [pldCount_append]
    by_cases he : ty2 = ty
    · subst he
      have hz := pldScan_none_count pld0 ty2 hmiss
      have hone : pldCount [(⟨ty2, fresh⟩ : PLEntry)] ty2 = 1 := by
        simp [pldCount]
      rw [hz, hone]
    · have hne : ty ≠ ty2 := fun h2 => he h2.symm
      have hz : pldCount [(⟨ty, fresh⟩ : PLEntry)] ty2 = 0 := by
        simp [pldCount, hne]
      rw [hz]
      simpa using hinv ty2
  · simp [get_process_local, get_process_local_two_phase, hscan1]
  · simp [get_process_local_two_phase, hmiss, hscan1]

theorem c8_process_local_single_instance_witness :
    ∃ pld1 i, get_process_local [] 5 100 = (pld1, i) ∧
      i = 100 ∧
      (∀ ty2, pldCount pld1 ty2 ≤ 1) ∧
      get_process_local pld1 5 101 = (pld1, i) ∧
      get_process_local_two_phase [] pld1 5 102 = (pld1, i) :=
  c8_process_local_single_instance [] 5 100 101 102 rfl
    (fun ty2 => by simp [pldCount])
